import Mathlib

/-!
# Verification of the id3v2 tag reader

A shallow embedding of the ID3v2 tag reading package (`id3v2.go`) together
with theorems settling the specification claims about it.

Bytes are modelled as `Nat` (with `< 256` hypotheses where a theorem needs
byte-ness), byte slices as `List Nat`, Go's `(value, error)` returns as
`Except String` carrying the exact error strings from the source, and the
unreachable Go runtime panics as distinguished `"panic: ..."` errors.
-/

namespace Id3v2

/-! ## Syncsafe and big-endian integer codecs (id3v2.go `syncsafe`, `beUint32`) -/

/-- `syncsafeInvalid = ^uint32(0)` from the source. -/
def syncsafeInvalid : Nat := 4294967295

/-- `syncsafe(data []byte) uint32` from the source: four bytes, 7 usable bits
each; any byte with the high bit set yields the invalid sentinel. -/
def syncsafe (b0 b1 b2 b3 : Nat) : Nat :=
  if b0 &&& 0x80 ≠ 0 ∨ b1 &&& 0x80 ≠ 0 ∨ b2 &&& 0x80 ≠ 0 ∨ b3 &&& 0x80 ≠ 0 then
    syncsafeInvalid
  else
    b0 <<< 21 ||| b1 <<< 14 ||| b2 <<< 7 ||| b3

/-- `beUint32(data []byte) uint32` from the source: plain big-endian. -/
def beUint32 (b0 b1 b2 b3 : Nat) : Nat :=
  b0 <<< 24 ||| b1 <<< 16 ||| b2 <<< 8 ||| b3

/-! ### Bit-arithmetic helpers -/

/-- A byte below `2 ^ n` has a zero bitwise-and with `2 ^ n`. -/
theorem and_two_pow_eq_zero {b n : Nat} (h : b < 2 ^ n) : b &&& 2 ^ n = 0 := by
  rw [Nat.and_two_pow, Nat.testBit_lt_two_pow h]
  simp

theorem and_128_eq_zero {b : Nat} (h : b < 128) : b &&& 128 = 0 :=
  and_two_pow_eq_zero (n := 7) h

theorem and_128_ne_zero {b : Nat} (h1 : 128 ≤ b) (h2 : b < 256) : b &&& 128 ≠ 0 := by
  have ht : b.testBit 7 = true := by
    rw [Nat.testBit_to_div_mod]
    have hd : b / 2 ^ 7 = 1 := by omega
    norm_num at hd ⊢
    omega
  have : b &&& 128 = 128 := by
    have := Nat.and_two_pow b 7
    rw [ht] at this
    simpa using this
  omega

theorem and_16_eq_zero {b : Nat} (h : b < 16) : b &&& 16 = 0 :=
  and_two_pow_eq_zero (n := 4) h

/-- Recombining disjointly shifted 7-bit bytes is plain arithmetic. -/
theorem or4_shift7 {b0 b1 b2 b3 : Nat} (h0 : b0 < 128) (h1 : b1 < 128)
    (h2 : b2 < 128) (h3 : b3 < 128) :
    b0 <<< 21 ||| b1 <<< 14 ||| b2 <<< 7 ||| b3 =
      b0 * 2 ^ 21 + b1 * 2 ^ 14 + b2 * 2 ^ 7 + b3 := by
  have e0 : b0 <<< 21 = 2 ^ 21 * b0 := by rw [Nat.shiftLeft_eq]; ring
  have e1 : b1 <<< 14 = b1 * 2 ^ 14 := Nat.shiftLeft_eq b1 14
  have e2 : b2 <<< 7 = b2 * 2 ^ 7 := Nat.shiftLeft_eq b2 7
  rw [e0, e1, e2]
  rw [← Nat.mul_add_lt_is_or (b := b1 * 2 ^ 14) (by nlinarith) b0]
  have r1 : 2 ^ 21 * b0 + b1 * 2 ^ 14 = 2 ^ 14 * (2 ^ 7 * b0 + b1) := by ring
  rw [r1, ← Nat.mul_add_lt_is_or (b := b2 * 2 ^ 7) (by nlinarith) (2 ^ 7 * b0 + b1)]
  have r2 : 2 ^ 14 * (2 ^ 7 * b0 + b1) + b2 * 2 ^ 7 =
      2 ^ 7 * (2 ^ 14 * b0 + 2 ^ 7 * b1 + b2) := by ring
  rw [r2, ← Nat.mul_add_lt_is_or (b := b3) (by omega) (2 ^ 14 * b0 + 2 ^ 7 * b1 + b2)]
  ring

/-- Recombining disjointly shifted 8-bit bytes is plain arithmetic. -/
theorem or4_shift8 {b0 b1 b2 b3 : Nat} (h0 : b0 < 256) (h1 : b1 < 256)
    (h2 : b2 < 256) (h3 : b3 < 256) :
    b0 <<< 24 ||| b1 <<< 16 ||| b2 <<< 8 ||| b3 =
      b0 * 2 ^ 24 + b1 * 2 ^ 16 + b2 * 2 ^ 8 + b3 := by
  have e0 : b0 <<< 24 = 2 ^ 24 * b0 := by rw [Nat.shiftLeft_eq]; ring
  have e1 : b1 <<< 16 = b1 * 2 ^ 16 := Nat.shiftLeft_eq b1 16
  have e2 : b2 <<< 8 = b2 * 2 ^ 8 := Nat.shiftLeft_eq b2 8
  rw [e0, e1, e2]
  rw [← Nat.mul_add_lt_is_or (b := b1 * 2 ^ 16) (by nlinarith) b0]
  have r1 : 2 ^ 24 * b0 + b1 * 2 ^ 16 = 2 ^ 16 * (2 ^ 8 * b0 + b1) := by ring
  rw [r1, ← Nat.mul_add_lt_is_or (b := b2 * 2 ^ 8) (by nlinarith) (2 ^ 8 * b0 + b1)]
  have r2 : 2 ^ 16 * (2 ^ 8 * b0 + b1) + b2 * 2 ^ 8 =
      2 ^ 8 * (2 ^ 16 * b0 + 2 ^ 8 * b1 + b2) := by ring
  rw [r2, ← Nat.mul_add_lt_is_or (b := b3) (by omega) (2 ^ 16 * b0 + 2 ^ 8 * b1 + b2)]
  ring

/-- On all-valid input `syncsafe` is the 28-bit low-7-bits recombination. -/
theorem syncsafe_valid {b0 b1 b2 b3 : Nat} (h0 : b0 < 128) (h1 : b1 < 128)
    (h2 : b2 < 128) (h3 : b3 < 128) :
    syncsafe b0 b1 b2 b3 = b0 * 2 ^ 21 + b1 * 2 ^ 14 + b2 * 2 ^ 7 + b3 := by
  unfold syncsafe
  rw [if_neg]
  · exact or4_shift7 h0 h1 h2 h3
  · push_neg
    exact ⟨and_128_eq_zero h0, and_128_eq_zero h1, and_128_eq_zero h2, and_128_eq_zero h3⟩

/-! ## Frame identifiers (id3v2.go `validIDByte`, `frameID`) -/

/-- `invalidFrameID = ^FrameID(0)` from the source. -/
def invalidFrameID : Nat := 4294967295

/-- `validIDByte(b byte) bool` from the source: `[A-Z0-9]`. -/
def validIDByte (b : Nat) : Bool :=
  (65 ≤ b && b ≤ 90) || (48 ≤ b && b ≤ 57)

/-- `frameID(data []byte) FrameID` from the source.  Note that the source
passes the whole remaining tag body here, and the all-zero scan on the
invalid path ranges over that entire slice, not just the first 4 bytes. -/
def frameID (data : List Nat) : Nat :=
  if validIDByte (data.getD 0 0) && validIDByte (data.getD 1 0) &&
      validIDByte (data.getD 2 0) && validIDByte (data.getD 3 0) then
    (data.getD 0 0) <<< 24 ||| (data.getD 1 0) <<< 16 |||
      (data.getD 2 0) <<< 8 ||| (data.getD 3 0)
  else if data.all (· == 0) then 0
  else invalidFrameID

/-! ## Frames (id3v2.go `ID3Frame`, `ID3Frames`, `Lookup`) -/

/-- `ID3Frame` from the source; `Data` is the defensively copied payload. -/
structure ID3Frame where
  ID : Nat
  Flags : Nat
  Data : List Nat
deriving DecidableEq, Repr

/-- `(frames ID3Frames) Lookup(id FrameID) *ID3Frame` from the source: a
forward linear scan returning the first frame whose ID matches. -/
def Lookup (frames : List ID3Frame) (id : Nat) : Option ID3Frame :=
  match frames with
  | [] => none
  | f :: rest => if f.ID = id then some f else Lookup rest id

/-! ## The per-block decoder (the body of `Scan`'s `for s.Scan()` loop) -/

/-- The footer handling in `Scan`: strip the last 10 body bytes and check
them against the header.  Go would panic on a body shorter than 10 bytes
(negative slice index); that is the `"panic: ..."` error case. -/
def stripFooter (header data : List Nat) : Except String (List Nat) :=
  if data.length < 10 then .error "panic: runtime error: slice bounds out of range"
  else
    let footer := data.drop (data.length - 10)
    let rest := data.take (data.length - 10)
    if footer.take 3 ≠ [51, 68, 73] ∨ header.drop 3 ≠ footer.drop 3 then
      .error "id3: invalid footer"
    else .ok rest

/-- The extended-header handling in `Scan`: the size is read with `syncsafe`
(for v2.3 and v2.4 alike), then `size` bytes are dropped from the front of
the body.  Go would panic on a body shorter than 4 bytes. -/
def parseExtHeader (data : List Nat) : Except String (List Nat) :=
  if data.length < 4 then .error "panic: runtime error: index out of range"
  else
    let size := syncsafe (data.getD 0 0) (data.getD 1 0) (data.getD 2 0) (data.getD 3 0)
    if size = syncsafeInvalid ∨ data.length < size then
      .error "id3: invalid extended header"
    else .ok (data.drop size)

/-- The frame loop of `Scan` (`for len(data) > 10`), returning the decoded
frames in order together with the leftover bytes handed to the padding
validation. -/
def decodeFrames (version : Nat) (data : List Nat) :
    Except String (List ID3Frame × List Nat) :=
  if h : data.length ≤ 10 then .ok ([], data)
  else
    let id := frameID data
    if id = 0 then .ok ([], data)
    else if id = invalidFrameID then .error "id3: invalid frame id"
    else
      let sizeRes : Except String Nat :=
        if version = 4 then
          let s := syncsafe (data.getD 4 0) (data.getD 5 0) (data.getD 6 0) (data.getD 7 0)
          if s = syncsafeInvalid then .error "id3: invalid frame size" else .ok s
        else if version = 3 then
          .ok (beUint32 (data.getD 4 0) (data.getD 5 0) (data.getD 6 0) (data.getD 7 0))
        else .error "panic: unhandled version"
      match sizeRes with
      | .error e => .error e
      | .ok size =>
        if data.length < 10 + size then
          .error "id3: frame size exceeds length of tag data"
        else
          let frame : ID3Frame :=
            ⟨id, (data.getD 8 0) <<< 8 ||| data.getD 9 0, (data.drop 10).take size⟩
          match decodeFrames version (data.drop (10 + size)) with
          | .error e => .error e
          | .ok (fs, rest) => .ok (frame :: fs, rest)
termination_by data.length
decreasing_by
  simp only [List.length_drop]
  omega

/-- The padding validation after the frame loop in `Scan`. -/
def checkPadding (footerSet : Bool) (rest : List Nat) : Except String Unit :=
  if footerSet ∧ rest ≠ [] then .error "id3: padding with footer"
  else if rest.all (· == 0) then .ok ()
  else .error "id3: invalid padding"

/-- One iteration of `Scan`'s per-token loop: header split, version gate
(non-2.3/2.4 blocks are skipped with no frames and no error), footer strip,
extended header, frame loop, padding validation. -/
def processBlock (token : List Nat) : Except String (List ID3Frame) :=
  if token.length < 10 then .error "panic: runtime error: slice bounds out of range"
  else
    let header := token.take 10
    let body := token.drop 10
    if header.take 3 ≠ [73, 68, 51] then .error "panic: id3: bufio.Scanner failed"
    else
      let version := header.getD 3 0
      if version = 4 ∨ version = 3 then
        let flags := header.getD 5 0
        match (if flags &&& 16 = 16 then stripFooter header body else .ok body) with
        | .error e => .error e
        | .ok body1 =>
          match (if flags &&& 64 = 64 then parseExtHeader body1 else .ok body1) with
          | .error e => .error e
          | .ok body2 =>
            match decodeFrames version body2 with
            | .error e => .error e
            | .ok (fs, rest) =>
              match checkPadding (decide (flags &&& 16 = 16)) rest with
              | .error e => .error e
              | .ok _ => .ok fs
      else .ok []

/-! ## The tag locator (id3v2.go `id3Split`) -/

/-- `bytes.Index(data, []byte("ID3"))`: index of the first occurrence of
the byte sequence `49 44 33`. -/
def indexOfID3 : List Nat → Option Nat
  | [] => none
  | a :: rest =>
    if a = 73 ∧ rest.take 2 = [68, 51] then some 0
    else (indexOfID3 rest).map (· + 1)

/-- `id3Split(data []byte, atEOF bool)` from the source, the
`bufio.Scanner` split function.  `.ok (advance, token?)` models the
`(advance, token, nil)` return; `.error ()` models `io.ErrUnexpectedEOF`. -/
def id3Split (data : List Nat) (atEOF : Bool) : Except Unit (Nat × Option (List Nat)) :=
  match indexOfID3 data with
  | none => if data.length < 2 then .ok (0, none) else .ok (data.length - 2, none)
  | some i =>
    let d := data.drop i
    if d.length < 10 then
      if atEOF then .error () else .ok (i, none)
    else
      let size := syncsafe (d.getD 6 0) (d.getD 7 0) (d.getD 8 0) (d.getD 9 0)
      if d.getD 3 0 = 255 ∨ d.getD 4 0 = 255 ∨ size = syncsafeInvalid then
        .ok (i + 3, none)
      else if 5 < d.getD 3 0 then .ok (i + 3, none)
      else
        let size2 := if d.getD 5 0 &&& 16 = 16 then size + 10 else size
        if d.length < 10 + size2 then
          if atEOF then .error () else .ok (i, none)
        else .ok (i + 10 + size2, some (d.take (10 + size2)))

/-- A match of `ID3` at index `i` needs three bytes, so `i + 3 ≤ length`. -/
theorem indexOfID3_le (l : List Nat) (i : Nat) (h : indexOfID3 l = some i) :
    i + 3 ≤ l.length := by
  induction l generalizing i with
  | nil => simp [indexOfID3] at h
  | cons a rest ih =>
    rw [indexOfID3] at h
    split at h
    · rename_i hc
      have hi : i = 0 := by simpa using h.symm
      have hlen : rest.take 2 = [68, 51] := hc.2
      have h2 : (rest.take 2).length = 2 := by rw [hlen]; rfl
      simp only [List.length_take] at h2
      simp only [hi, List.length_cons]
      omega
    · obtain ⟨j, hj, hji⟩ := Option.map_eq_some'.mp h
      have := ih j hj
      simp only [List.length_cons]
      omega

/-- Every advance `id3Split` reports is bounded by the input length. -/
theorem id3Split_adv_le (data : List Nat) (atEOF : Bool) (adv : Nat)
    (t : Option (List Nat)) (h : id3Split data atEOF = .ok (adv, t)) :
    adv ≤ data.length := by
  unfold id3Split at h
  split at h
  · split at h <;> (simp only [Except.ok.injEq, Prod.mk.injEq] at h; omega)
  · rename_i i hidx
    have hi := indexOfID3_le data i hidx
    simp only [List.length_drop] at h
    repeat' split at h
    all_goals first
      | exact Except.noConfusion h
      | (simp only [Except.ok.injEq, Prod.mk.injEq] at h
         simp only [not_lt, List.length_drop] at *
         omega)

/-! ## The stream-level scanner (id3v2.go `Scan`) -/

/-- The `for s.Scan()` loop of `Scan` driven by `id3Split` at end of input:
a `bufio.Scanner` over fully available data repeatedly applies the split
function with `atEOF = true`, stops on `(0, nil, nil)`, skips on
`(advance, nil, nil)` and processes each emitted token.  Any split error or
block error makes `Scan` return `(nil, err)`, dropping all frames decoded
so far. -/
def scanLoop (data : List Nat) (acc : List ID3Frame) : List ID3Frame × Option String :=
  match h : id3Split data true with
  | .error _ => ([], some "unexpected EOF")
  | .ok (adv, none) =>
    if ha : adv = 0 then (acc, none)
    else scanLoop (data.drop adv) acc
  | .ok (adv, some tok) =>
    if ha : adv = 0 then (acc, none)
    else
      match processBlock tok with
      | .error e => ([], some e)
      | .ok fs => scanLoop (data.drop adv) (acc ++ fs)
termination_by data.length
decreasing_by
  · have hle := id3Split_adv_le data true adv none h
    have hne : 0 < data.length := by
      rcases Nat.eq_zero_or_pos data.length with hz | hp
      · omega
      · exact hp
    simp only [List.length_drop]
    omega
  · have hle := id3Split_adv_le data true adv (some tok) h
    simp only [List.length_drop]
    omega

/-- `Scan(r io.Reader) (ID3Frames, error)` from the source, for a fully
available input: the frame list and the error, where every error path in
the source returns a `nil` frame list. -/
def Scan (input : List Nat) : List ID3Frame × Option String :=
  scanLoop input []

/-! ## The text decoder (id3v2.go `(f *ID3Frame) Text`) -/

/-- Go's per-rune UTF-8 encoding, as performed by `string(runes)`:
invalid scalar values become U+FFFD. -/
def utf8EncodeChar (c : Nat) : List Nat :=
  if c < 0x80 then [c]
  else if c < 0x800 then [0xC0 ||| (c >>> 6), 0x80 ||| (c &&& 0x3F)]
  else if 0xD800 ≤ c ∧ c < 0xE000 then [0xEF, 0xBF, 0xBD]
  else if c < 0x10000 then
    [0xE0 ||| (c >>> 12), 0x80 ||| ((c >>> 6) &&& 0x3F), 0x80 ||| (c &&& 0x3F)]
  else if c < 0x110000 then
    [0xF0 ||| (c >>> 18), 0x80 ||| ((c >>> 12) &&& 0x3F),
      0x80 ||| ((c >>> 6) &&& 0x3F), 0x80 ||| (c &&& 0x3F)]
  else [0xEF, 0xBF, 0xBD]

/-- The shared tail of the `0x00`-without-high-bit and `0x03` cases of
`Text`: drop a trailing `0x00` byte, then return `Data[1:m]` verbatim
(a Go string is its raw bytes). -/
def textTail (data : List Nat) : List Nat :=
  let m := if data.getD (data.length - 1) 0 = 0 then data.length - 1 else data.length
  (data.take m).drop 1

/-- `(f *ID3Frame) Text() (string, error)` from the source.  The result is
the returned Go string as its byte sequence.  In the `0x00` branch with
some high bit set, the source builds `runes` from every byte of `f.Data`
(including the leading encoding byte) and returns `string(runes)`. -/
def ID3Frame.Text (f : ID3Frame) : Except String (List Nat) :=
  if f.Data.length < 2 then .error "id3: frame data is invalid"
  else if f.Data.getD 0 0 = 0 then
    if f.Data.any (fun v => v &&& 128 != 0) then
      .ok (f.Data.flatMap utf8EncodeChar)
    else .ok (textTail f.Data)
  else if f.Data.getD 0 0 = 3 then .ok (textTail f.Data)
  else .error "id3: frame uses unsupported encoding"

/-- Modelled from the spec: the unsynchronisation destuffing scheme
(drop every `0x00` byte immediately following a `0xFF` byte).  No such
operation exists anywhere in `src/id3v2.go`; this definition exists only
to compare the spec's claimed behaviour with the code's. -/
def destuffSpec : List Nat → List Nat
  | 255 :: 0 :: rest => 255 :: destuffSpec rest
  | b :: rest => b :: destuffSpec rest
  | [] => []

/-! ## Shared helper lemmas -/

theorem validIDByte_bounds {b : Nat} (h : validIDByte b = true) : 48 ≤ b ∧ b ≤ 90 := by
  simp only [validIDByte, Bool.or_eq_true, Bool.and_eq_true, decide_eq_true_eq] at h
  omega

/-- The frame loop does nothing when at most 10 body bytes remain
(`for len(data) > 10`). -/
theorem decodeFrames_of_le (version : Nat) (data : List Nat)
    (h : data.length ≤ 10) : decodeFrames version data = .ok ([], data) := by
  unfold decodeFrames
  rw [dif_pos h]

theorem getD_replicate_zero (k i : Nat) : (List.replicate k (0 : Nat)).getD i 0 = 0 := by
  induction k generalizing i with
  | zero => simp [List.replicate]
  | succ k ih =>
    cases i with
    | zero => simp [List.replicate]
    | succ i => simpa [List.replicate] using ih i

theorem drop_replicate_zero (k i : Nat) :
    (List.replicate k (0 : Nat)).drop i = List.replicate (k - i) 0 := by
  induction k generalizing i with
  | zero => simp
  | succ k ih =>
    cases i with
    | zero => simp
    | succ i => simpa [List.replicate] using ih i

/-- The frame loop turns an all-zero body into the padding leftover:
`frameID` returns the padding sentinel `0` and the loop breaks. -/
theorem decodeFrames_replicate_zero (version k : Nat) :
    decodeFrames version (List.replicate k 0) = .ok ([], List.replicate k 0) := by
  by_cases h : (List.replicate k (0 : Nat)).length ≤ 10
  · exact decodeFrames_of_le version _ h
  · unfold decodeFrames
    rw [dif_neg h]
    have hid : frameID (List.replicate k 0) = 0 := by
      unfold frameID
      rw [if_neg, if_pos]
      · simp
      · simp [getD_replicate_zero, validIDByte]
    rw [hid]
    simp

/-! ## C7: the syncsafe decoder -/

/-- C7: for every 4-byte input with all bytes < 0x80 the syncsafe decoder
returns the 28-bit value `b0<<21 | b1<<14 | b2<<7 | b3` (written as the
equal arithmetic sum), the value is below `2^28`, is not the sentinel, and
decode-then-recompose round-trips (each original byte is recoverable from
the value); for every input with some byte ≥ 0x80 it returns the invalid
sentinel.  The function is a pure total Lean function on 4 bytes. -/
theorem syncsafe_c7 : ∀ b0 b1 b2 b3 : Nat,
    b0 < 256 → b1 < 256 → b2 < 256 → b3 < 256 →
    ((b0 < 128 ∧ b1 < 128 ∧ b2 < 128 ∧ b3 < 128) →
      syncsafe b0 b1 b2 b3 = b0 * 2 ^ 21 + b1 * 2 ^ 14 + b2 * 2 ^ 7 + b3 ∧
      syncsafe b0 b1 b2 b3 < 2 ^ 28 ∧
      syncsafe b0 b1 b2 b3 ≠ syncsafeInvalid ∧
      syncsafe b0 b1 b2 b3 / 2 ^ 21 = b0 ∧
      syncsafe b0 b1 b2 b3 / 2 ^ 14 % 128 = b1 ∧
      syncsafe b0 b1 b2 b3 / 2 ^ 7 % 128 = b2 ∧
      syncsafe b0 b1 b2 b3 % 128 = b3) ∧
    ((128 ≤ b0 ∨ 128 ≤ b1 ∨ 128 ≤ b2 ∨ 128 ≤ b3) →
      syncsafe b0 b1 b2 b3 = syncsafeInvalid) := by
  intro b0 b1 b2 b3 hb0 hb1 hb2 hb3
  constructor
  · rintro ⟨h0, h1, h2, h3⟩
    rw [syncsafe_valid h0 h1 h2 h3]
    refine ⟨rfl, by omega, ?_, by omega, by omega, by omega, by omega⟩
    unfold syncsafeInvalid
    omega
  · intro hcase
    unfold syncsafe
    rw [if_pos]
    rcases hcase with hc | hc | hc | hc
    · exact Or.inl (and_128_ne_zero hc hb0)
    · exact Or.inr (Or.inl (and_128_ne_zero hc hb1))
    · exact Or.inr (Or.inr (Or.inl (and_128_ne_zero hc hb2)))
    · exact Or.inr (Or.inr (Or.inr (and_128_ne_zero hc hb3)))

theorem syncsafe_c7_witness :
    syncsafe 0 0 1 127 = 255 ∧ syncsafe 128 0 0 0 = syncsafeInvalid := by
  constructor
  · have h := (syncsafe_c7 0 0 1 127 (by norm_num) (by norm_num) (by norm_num)
      (by norm_num)).1 (by norm_num)
    rw [h.1]
    norm_num
  · exact (syncsafe_c7 128 0 0 0 (by norm_num) (by norm_num) (by norm_num)
      (by norm_num)).2 (by norm_num)

/-! ## C8: padding/footer validation after the frame loop -/

/-- C8: after the frame loop (`checkPadding` is the post-loop validation in
`processBlock`): if the footer flag is set and leftover body bytes remain,
the block fails with the padding-with-footer error; otherwise validation
succeeds iff every leftover byte is `0x00`, and a non-zero byte fails with
the invalid-padding error. -/
theorem checkPadding_c8 : ∀ (footerSet : Bool) (rest : List Nat),
    (footerSet = true → rest ≠ [] →
      checkPadding footerSet rest = .error "id3: padding with footer") ∧
    (¬(footerSet = true ∧ rest ≠ []) →
      ((checkPadding footerSet rest = .ok ()) ↔ ∀ b ∈ rest, b = 0) ∧
      ((∃ b ∈ rest, b ≠ 0) →
        checkPadding footerSet rest = .error "id3: invalid padding")) := by
  intro footerSet rest
  constructor
  · intro h1 h2
    unfold checkPadding
    rw [if_pos ⟨h1, h2⟩]
  · intro hn
    unfold checkPadding
    rw [if_neg hn]
    by_cases hall : ∀ b ∈ rest, b = 0
    · have ha : rest.all (· == 0) = true := by
        simp only [List.all_eq_true, beq_iff_eq]
        exact hall
      rw [if_pos ha]
      refine ⟨⟨fun _ => hall, fun _ => rfl⟩, ?_⟩
      rintro ⟨b, hb, hbne⟩
      exact absurd (hall b hb) hbne
    · have ha : ¬ rest.all (· == 0) = true := by
        simp only [List.all_eq_true, beq_iff_eq]
        exact hall
      rw [if_neg ha]
      refine ⟨by simp [hall], fun _ => rfl⟩

theorem checkPadding_c8_witness :
    checkPadding true [5] = .error "id3: padding with footer" ∧
    checkPadding false [0, 0] = .ok () ∧
    checkPadding false [0, 7] = .error "id3: invalid padding" ∧
    checkPadding true [] = .ok () := by
  refine ⟨(checkPadding_c8 true [5]).1 rfl (by simp), ?_, ?_, ?_⟩
  · exact ((checkPadding_c8 false [0, 0]).2 (by simp)).1.mpr (by simp)
  · exact ((checkPadding_c8 false [0, 7]).2 (by simp)).2 ⟨7, by simp⟩
  · exact ((checkPadding_c8 true []).2 (by simp)).1.mpr (by simp)

/-! ## C1: Lookup -/

/-- C1 (amended): `Lookup` scans forward and returns the *first* frame in
insertion order whose ID matches (the earliest occurrence wins), or `none`
when no frame matches — not the last occurrence as claimed. -/
theorem Lookup_c1_amended :
    (∀ (a b : List ID3Frame) (f : ID3Frame) (id : Nat),
      (∀ g ∈ a, g.ID ≠ id) → f.ID = id → Lookup (a ++ f :: b) id = some f) ∧
    (∀ (frames : List ID3Frame) (id : Nat),
      (∀ g ∈ frames, g.ID ≠ id) → Lookup frames id = none) := by
  constructor
  · intro a b f id ha hf
    induction a with
    | nil =>
      rw [List.nil_append, Lookup, if_pos hf]
    | cons g a ih =>
      rw [List.cons_append, Lookup]
      rw [if_neg (ha g (by simp))]
      exact ih fun g' hg' => ha g' (by simp [hg'])
  · intro frames id h
    induction frames with
    | nil => rfl
    | cons f rest ih =>
      rw [Lookup, if_neg (h f (by simp))]
      exact ih fun g hg => h g (by simp [hg])

/-- C1 counterexample: with frames [A(id=88,val=1), B(id=89), C(id=88,val=2)]
in that order, `Lookup 88` returns A (the first match), not C as claimed. -/
theorem Lookup_c1_counterexample :
    Lookup [⟨88, 0, [1]⟩, ⟨89, 0, []⟩, ⟨88, 0, [2]⟩] 88 = some ⟨88, 0, [1]⟩ ∧
    (⟨88, 0, [1]⟩ : ID3Frame) ≠ ⟨88, 0, [2]⟩ := by
  constructor
  · rfl
  · decide

theorem Lookup_c1_witness :
    Lookup ([⟨89, 0, []⟩] ++ ⟨88, 0, [1]⟩ :: [⟨88, 0, [2]⟩]) 88 = some ⟨88, 0, [1]⟩ ∧
    Lookup [⟨89, 0, []⟩] 88 = none := by
  constructor
  · exact Lookup_c1_amended.1 [⟨89, 0, []⟩] [⟨88, 0, [2]⟩] ⟨88, 0, [1]⟩ 88
      (by decide) rfl
  · exact Lookup_c1_amended.2 [⟨89, 0, []⟩] 88 (by decide)

/-! ## C3: ISO-8859-1 text decoding with high-bit bytes -/

/-- C3 (amended): in the `0x00`-encoding branch with some high-bit byte
present, `Text` converts *every* byte of `Data` — the leading encoding byte
included — to the code point of the same numeric value and returns their
UTF-8 encoding; no final NUL code point is dropped.  (The claim's exclusion
of the encoding byte and its NUL-drop do not happen in the source: `runes`
is built from all of `f.Data`.) -/
theorem Text_c3_amended : ∀ f : ID3Frame,
    2 ≤ f.Data.length → f.Data.getD 0 0 = 0 →
    f.Data.any (fun v => v &&& 128 != 0) = true →
    f.Text = .ok (f.Data.flatMap utf8EncodeChar) := by
  intro f h1 h2 h3
  unfold ID3Frame.Text
  rw [if_neg (by omega), if_pos h2, if_pos h3]

/-- C3 counterexample: on `Data = 00 C9 74 E9` the source returns the
UTF-8 encoding of code points U+0000 U+00C9 U+0074 U+00E9 (the leading
encoding byte becomes a leading NUL code point), not the claimed
U+00C9 U+0074 U+00E9. -/
theorem Text_c3_counterexample :
    ID3Frame.Text ⟨0, 0, [0, 201, 116, 233]⟩ ≠
      .ok (([201, 116, 233] : List Nat).flatMap utf8EncodeChar) ∧
    ID3Frame.Text ⟨0, 0, [0, 201, 116, 233]⟩ = .ok [0, 195, 137, 116, 195, 169] := by
  have h : ID3Frame.Text ⟨0, 0, [0, 201, 116, 233]⟩ =
      .ok [0, 195, 137, 116, 195, 169] := by rfl
  refine ⟨?_, h⟩
  rw [h]
  have hl : (([201, 116, 233] : List Nat).flatMap utf8EncodeChar) =
      [195, 137, 116, 195, 169] := by rfl
  rw [hl]
  simp

theorem Text_c3_witness :
    ID3Frame.Text ⟨0, 0, [0, 201, 116, 233]⟩ =
      .ok (([0, 201, 116, 233] : List Nat).flatMap utf8EncodeChar) :=
  Text_c3_amended ⟨0, 0, [0, 201, 116, 233]⟩ (by norm_num) (by decide) (by decide)

/-! ## C4: UTF-16 (encoding byte 0x01) -/

/-- C4 (amended): the source supports only encodings `0x00` and `0x03`;
a frame whose `Data` begins with encoding byte `0x01` (UTF-16 with BOM)
always fails with the unsupported-encoding error — no BOM is read and no
UTF-16 decoding exists in the source. -/
theorem Text_c4_amended : ∀ f : ID3Frame,
    2 ≤ f.Data.length → f.Data.getD 0 0 = 1 →
    f.Text = .error "id3: frame uses unsupported encoding" := by
  intro f h1 h2
  unfold ID3Frame.Text
  rw [if_neg (by omega), if_neg (by simp only [h2]; norm_num),
    if_neg (by simp only [h2]; norm_num)]

/-- C4 counterexample: `Data = 01 FF FE 41 00 42 00 00 00` does not decode
to `"AB"` (UTF-8 bytes `41 42`); it is rejected with the
unsupported-encoding error. -/
theorem Text_c4_counterexample :
    ID3Frame.Text ⟨0, 0, [1, 255, 254, 65, 0, 66, 0, 0, 0]⟩ ≠ .ok [65, 66] ∧
    ID3Frame.Text ⟨0, 0, [1, 255, 254, 65, 0, 66, 0, 0, 0]⟩ =
      .error "id3: frame uses unsupported encoding" := by
  have h : ID3Frame.Text ⟨0, 0, [1, 255, 254, 65, 0, 66, 0, 0, 0]⟩ =
      .error "id3: frame uses unsupported encoding" := by rfl
  refine ⟨?_, h⟩
  rw [h]
  simp

theorem Text_c4_witness :
    ID3Frame.Text ⟨0, 0, [1, 255, 254, 65, 0, 66, 0, 0, 0]⟩ =
      .error "id3: frame uses unsupported encoding" :=
  Text_c4_amended ⟨0, 0, [1, 255, 254, 65, 0, 66, 0, 0, 0]⟩ (by norm_num) (by decide)

/-! ## C9: the frame loop bound -/

/-- C9 (amended): the frame loop runs only while *more than* 10 body bytes
remain (`for len(data) > 10`); with 10 or fewer bytes left no frame is
decoded and the bytes are handed to padding validation unchanged.  In
particular a body ending with exactly a 10-byte zero-size frame header is
not decoded. -/
theorem decodeFrames_c9_amended : ∀ (version : Nat) (data : List Nat),
    data.length ≤ 10 → decodeFrames version data = .ok ([], data) :=
  decodeFrames_of_le

/-- C9 counterexample: a v2.4 tag block whose body is exactly the 10-byte
frame header `TIT2` with declared size 0 does not get that frame decoded;
the block fails padding validation instead of returning the frame. -/
theorem processBlock_c9_counterexample :
    processBlock [73, 68, 51, 4, 0, 0, 0, 0, 0, 10,
        84, 73, 84, 50, 0, 0, 0, 0, 0, 0] = .error "id3: invalid padding" ∧
    processBlock [73, 68, 51, 4, 0, 0, 0, 0, 0, 10,
        84, 73, 84, 50, 0, 0, 0, 0, 0, 0] ≠ .ok [⟨1414091826, 0, []⟩] := by
  have h : processBlock [73, 68, 51, 4, 0, 0, 0, 0, 0, 10,
      84, 73, 84, 50, 0, 0, 0, 0, 0, 0] = .error "id3: invalid padding" := by
    simp [processBlock, decodeFrames_of_le, checkPadding]
  exact ⟨h, by rw [h]; simp⟩

theorem decodeFrames_c9_witness :
    decodeFrames 4 [84, 73, 84, 50, 0, 0, 0, 0, 0, 0] =
      .ok ([], [84, 73, 84, 50, 0, 0, 0, 0, 0, 0]) :=
  decodeFrames_c9_amended 4 [84, 73, 84, 50, 0, 0, 0, 0, 0, 0] (by norm_num)

/-! ## C10: stream-wide atomicity on error -/

theorem scanLoop_atomic : ∀ (n : Nat) (data : List Nat) (acc : List ID3Frame),
    data.length ≤ n →
    (scanLoop data acc).2 = none ∨ (scanLoop data acc).1 = [] := by
  intro n
  induction n with
  | zero =>
    intro data acc h
    have hd : data = [] := List.eq_nil_of_length_eq_zero (by omega)
    subst hd
    rw [scanLoop.eq_def]
    simp [id3Split, indexOfID3]
  | succ n ih =>
    intro data acc h
    rw [scanLoop.eq_def]
    split
    · right; rfl
    · rename_i adv hsplit
      split
      · left; rfl
      · rename_i ha
        have hle := id3Split_adv_le data true adv none hsplit
        exact ih (data.drop adv) acc (by simp only [List.length_drop]; omega)
    · rename_i adv tok hsplit
      split
      · left; rfl
      · rename_i ha
        split
        · right; rfl
        · have hle := id3Split_adv_le data true adv (some tok) hsplit
          exact ih (data.drop adv) _ (by simp only [List.length_drop]; omega)

/-- C10: whenever `Scan` reports an error, the frame list it returns is
empty — every error path in the source returns `nil` frames, discarding
even frames decoded from earlier fully-valid tag blocks. -/
theorem Scan_c10 : ∀ input : List Nat,
    (Scan input).2 = none ∨ (Scan input).1 = [] := fun input =>
  scanLoop_atomic input.length input [] (Nat.le_refl _)

instance {ε α : Type} [DecidableEq ε] [DecidableEq α] : DecidableEq (Except ε α) := fun a b =>
  match a, b with
  | .error e, .error e' =>
    if h : e = e' then .isTrue (by rw [h]) else
      .isFalse (by intro hc; injection hc; contradiction)
  | .error _, .ok _ => .isFalse (by intro hc; exact Except.noConfusion hc)
  | .ok _, .error _ => .isFalse (by intro hc; exact Except.noConfusion hc)
  | .ok x, .ok y =>
    if h : x = y then .isTrue (by rw [h]) else
      .isFalse (by intro hc; injection hc; contradiction)

/-! ## C5: what the tag locator rejects -/

/-- C5 (amended): the locator performs no validation of the flags byte and
no lower version bound: a candidate header whose flags byte has bits
outside {Unsynchronisation, ExtendedHeader, Experimental, Footer} set, or
whose version byte is below the lowest supported version, is still emitted
as a tag block token (for any version ≤ 5 and, here, any flags byte with
only unknown low-nibble bits).  Blocks with version below 3 are then
skipped by `Scan`'s version switch with no frames and no error. -/
theorem id3Split_c5_amended : ∀ v fl : Nat, v ≤ 5 → fl < 16 →
    id3Split [73, 68, 51, v, 0, fl, 0, 0, 0, 0] true =
      .ok (10, some [73, 68, 51, v, 0, fl, 0, 0, 0, 0]) ∧
    (v < 3 → processBlock [73, 68, 51, v, 0, fl, 0, 0, 0, 0] = .ok []) := by
  intro v fl hv hfl
  interval_cases v <;> interval_cases fl <;>
    exact ⟨by decide, fun hv3 => by first | decide | omega⟩

/-- C5 counterexample: a candidate with unknown flag bit 0x01 set, and a
candidate with version byte 1 (below the lowest supported version 3), are
both *accepted* by the locator — it emits the full 10-byte tag block token
with advance 10, instead of skipping 3 bytes and emitting no token as
claimed. -/
theorem id3Split_c5_counterexample :
    id3Split [73, 68, 51, 4, 0, 1, 0, 0, 0, 0] true =
      .ok (10, some [73, 68, 51, 4, 0, 1, 0, 0, 0, 0]) ∧
    id3Split [73, 68, 51, 1, 0, 0, 0, 0, 0, 0] true =
      .ok (10, some [73, 68, 51, 1, 0, 0, 0, 0, 0, 0]) := by
  exact ⟨by decide, by decide⟩

theorem id3Split_c5_witness :
    id3Split [73, 68, 51, 2, 0, 3, 0, 0, 0, 0] true =
      .ok (10, some [73, 68, 51, 2, 0, 3, 0, 0, 0, 0]) ∧
    processBlock [73, 68, 51, 2, 0, 3, 0, 0, 0, 0] = .ok [] := by
  refine ⟨(id3Split_c5_amended 2 3 ?_ ?_).1, (id3Split_c5_amended 2 3 ?_ ?_).2 ?_⟩ <;>
    norm_num

/-! ## C6: extended-header size decoding on v2.3 -/

/-- C6 (amended): for a v2.3 tag block with the extended-header flag set
the source decodes the extended-header size field with `syncsafe` — exactly
as for v2.4, with no big-endian/+4 decoding anywhere — and a declared size
exceeding the remaining body length fails with the invalid-extended-header
error.  Stated for bodies `00 00 00 (4+k)` + `n` zero bytes: the block
succeeds iff `4 + k ≤ 4 + n` (syncsafe size within the body) and fails
with invalid-extended-header otherwise. -/
theorem processBlock_c6_amended : ∀ k n : Nat, k + 4 < 128 →
    processBlock ([73, 68, 51, 3, 0, 64, 0, 0, 0, 0] ++
        0 :: 0 :: 0 :: (4 + k) :: List.replicate n 0) =
      if 4 + k ≤ 4 + n then .ok []
      else .error "id3: invalid extended header" := by
  intro k n hk
  have hsync : syncsafe 0 0 0 (4 + k) = 4 + k := by
    rw [syncsafe_valid (by norm_num) (by norm_num) (by norm_num) (by omega)]
    ring
  have htake : (([73, 68, 51, 3, 0, 64, 0, 0, 0, 0] : List Nat) ++
      0 :: 0 :: 0 :: (4 + k) :: List.replicate n 0).take 10 =
      [73, 68, 51, 3, 0, 64, 0, 0, 0, 0] := List.take_left' rfl
  have hdrop : (([73, 68, 51, 3, 0, 64, 0, 0, 0, 0] : List Nat) ++
      0 :: 0 :: 0 :: (4 + k) :: List.replicate n 0).drop 10 =
      0 :: 0 :: 0 :: (4 + k) :: List.replicate n 0 := List.drop_left' rfl
  have hext : parseExtHeader (0 :: 0 :: 0 :: (4 + k) :: List.replicate n 0) =
      if 4 + k ≤ 4 + n then .ok (List.replicate (n - k) 0)
      else .error "id3: invalid extended header" := by
    unfold parseExtHeader
    rw [if_neg (by simp)]
    simp only [List.getD_cons_zero, List.getD_cons_succ]
    rw [hsync]
    by_cases hle : 4 + k ≤ 4 + n
    · rw [if_pos hle, if_neg]
      · congr 1
        have hd : (0 :: 0 :: 0 :: (4 + k) :: List.replicate n 0 : List Nat).drop (4 + k) =
            (List.replicate n (0 : Nat)).drop k := by
          rw [← List.drop_drop k 4]
          rfl
        rw [hd, drop_replicate_zero]
      · simp only [List.length_cons, List.length_replicate, syncsafeInvalid]
        push_neg
        constructor
        · omega
        · omega
    · rw [if_neg hle, if_pos]
      simp only [List.length_cons, List.length_replicate]
      right
      omega
  have hf16 : ((64 : Nat) &&& 16 = 16) = False := eq_false (by decide)
  have hf64 : ((64 : Nat) &&& 64 = 64) = True := eq_true (by decide)
  unfold processBlock
  rw [htake, hdrop]
  simp only [List.length_append, List.length_cons, List.length_replicate,
    List.length_nil, List.getD_cons_zero, List.getD_cons_succ,
    List.take_succ_cons, List.take_zero, hf16, hf64, if_true, if_false,
    decide_False, ne_eq, eq_self_iff_true, not_true, or_true]
  rw [if_neg (by omega)]
  rw [hext]
  by_cases hle : 4 + k ≤ 4 + n
  · rw [if_pos hle, if_pos hle]
    simp only [decodeFrames_replicate_zero]
    have hpad : checkPadding false (List.replicate (n - k) 0) = .ok () := by
      unfold checkPadding
      rw [if_neg (by simp), if_pos (by simp)]
    simp only [hpad]
  · rw [if_neg hle, if_neg hle]

/-- C6 counterexample: the v2.3 tag block `ID3 03 00 40 00000004` with body
`00 00 00 04` decodes successfully — the extended-header size is read as
the *syncsafe* value 4, which exactly covers the body.  Under the claimed
v2.3 encoding (big-endian + 4) the size would be 8, exceeding the 4
remaining body bytes, so the claim requires this block to fail with
invalid-extended-header; it does not. -/
theorem processBlock_c6_counterexample :
    processBlock [73, 68, 51, 3, 0, 64, 0, 0, 0, 4, 0, 0, 0, 4] = .ok [] ∧
    beUint32 0 0 0 4 + 4 = 8 ∧
    ([73, 68, 51, 3, 0, 64, 0, 0, 0, 4, 0, 0, 0, 4] : List Nat).drop 10 =
      [0, 0, 0, 4] ∧ (8 : Nat) > 4 := by
  refine ⟨?_, by decide, by decide, by norm_num⟩
  simp +decide [processBlock, parseExtHeader, syncsafe, syncsafeInvalid,
    decodeFrames_of_le, checkPadding]

theorem processBlock_c6_witness :
    processBlock ([73, 68, 51, 3, 0, 64, 0, 0, 0, 0] ++
        0 :: 0 :: 0 :: 10 :: List.replicate 8 0) = .ok [] ∧
    processBlock ([73, 68, 51, 3, 0, 64, 0, 0, 0, 0] ++
        0 :: 0 :: 0 :: 10 :: List.replicate 2 0) =
      .error "id3: invalid extended header" := by
  constructor
  · have h := processBlock_c6_amended 6 8 (by norm_num)
    rw [h]
    norm_num
  · have h := processBlock_c6_amended 6 2 (by norm_num)
    rw [h]
    norm_num

/-! ## C2: no destuffing is performed -/

/-- C2 (amended): no unsynchronisation destuffing exists in the source
(`Scan` only carries a `TODO` about the flag): every decoded frame stores
the raw payload bytes verbatim, even when the tag-level Unsynchronisation
flag (0x80, set in the header below) is set and the payload contains
`FF 00` pairs.  Stated for a v2.4 block with flag byte 0x80 holding one
frame with arbitrary id bytes, flag bytes and payload. -/
theorem processBlock_c2_amended :
    ∀ (b0 b1 b2 b3 f0 f1 s : Nat) (payload : List Nat),
    validIDByte b0 = true → validIDByte b1 = true → validIDByte b2 = true →
    validIDByte b3 = true → s < 128 → 0 < s → payload.length = s →
    processBlock ([73, 68, 51, 4, 0, 128, 0, 0, 0, 0] ++
        b0 :: b1 :: b2 :: b3 :: 0 :: 0 :: 0 :: s :: f0 :: f1 :: payload) =
      .ok [⟨b0 <<< 24 ||| b1 <<< 16 ||| b2 <<< 8 ||| b3,
            f0 <<< 8 ||| f1, payload⟩] := by
  intro b0 b1 b2 b3 f0 f1 s payload hv0 hv1 hv2 hv3 hs128 hspos hpl
  obtain ⟨hl0, hu0⟩ := validIDByte_bounds hv0
  obtain ⟨hl1, hu1⟩ := validIDByte_bounds hv1
  obtain ⟨hl2, hu2⟩ := validIDByte_bounds hv2
  obtain ⟨hl3, hu3⟩ := validIDByte_bounds hv3
  have hid : b0 <<< 24 ||| b1 <<< 16 ||| b2 <<< 8 ||| b3 =
      b0 * 2 ^ 24 + b1 * 2 ^ 16 + b2 * 2 ^ 8 + b3 :=
    or4_shift8 (by omega) (by omega) (by omega) (by omega)
  have hfid : frameID (b0 :: b1 :: b2 :: b3 :: 0 :: 0 :: 0 :: s :: f0 :: f1 :: payload) =
      b0 <<< 24 ||| b1 <<< 16 ||| b2 <<< 8 ||| b3 := by
    unfold frameID
    simp only [List.getD_cons_zero, List.getD_cons_succ]
    rw [if_pos (by rw [hv0, hv1, hv2, hv3]; rfl)]
  have hsync : syncsafe 0 0 0 s = s := by
    rw [syncsafe_valid (by norm_num) (by norm_num) (by norm_num) hs128]
    ring
  have hlen : (b0 :: b1 :: b2 :: b3 :: 0 :: 0 :: 0 :: s :: f0 :: f1 :: payload).length =
      10 + s := by
    simp only [List.length_cons, hpl]
    omega
  have hdec : decodeFrames 4
      (b0 :: b1 :: b2 :: b3 :: 0 :: 0 :: 0 :: s :: f0 :: f1 :: payload) =
      .ok ([⟨b0 <<< 24 ||| b1 <<< 16 ||| b2 <<< 8 ||| b3,
            f0 <<< 8 ||| f1, payload⟩], []) := by
    unfold decodeFrames
    rw [dif_neg (by rw [hlen]; omega)]
    rw [hfid]
    rw [if_neg (by rw [hid]; omega),
      if_neg (by rw [hid]; unfold invalidFrameID; omega)]
    rw [if_pos rfl]
    simp only [List.getD_cons_zero, List.getD_cons_succ]
    rw [hsync]
    rw [if_neg (by unfold syncsafeInvalid; omega)]
    simp only []
    rw [if_neg (by rw [hlen]; omega)]
    have hdrop10 : (b0 :: b1 :: b2 :: b3 :: 0 :: 0 :: 0 :: s :: f0 :: f1 :: payload).drop 10 =
        payload := rfl
    have hdata : ((b0 :: b1 :: b2 :: b3 :: 0 :: 0 :: 0 :: s :: f0 :: f1 :: payload).drop 10).take s =
        payload := by
      rw [hdrop10, ← hpl, List.take_length]
    have hrest : (b0 :: b1 :: b2 :: b3 :: 0 :: 0 :: 0 :: s :: f0 :: f1 :: payload).drop (10 + s) =
        ([] : List Nat) := by
      rw [← List.drop_drop s 10, hdrop10, ← hpl, List.drop_length]
    rw [hdata, hrest, decodeFrames_of_le 4 [] (by simp)]
  have htake : (([73, 68, 51, 4, 0, 128, 0, 0, 0, 0] : List Nat) ++
      b0 :: b1 :: b2 :: b3 :: 0 :: 0 :: 0 :: s :: f0 :: f1 :: payload).take 10 =
      [73, 68, 51, 4, 0, 128, 0, 0, 0, 0] := List.take_left' rfl
  have hdrop : (([73, 68, 51, 4, 0, 128, 0, 0, 0, 0] : List Nat) ++
      b0 :: b1 :: b2 :: b3 :: 0 :: 0 :: 0 :: s :: f0 :: f1 :: payload).drop 10 =
      b0 :: b1 :: b2 :: b3 :: 0 :: 0 :: 0 :: s :: f0 :: f1 :: payload := List.drop_left' rfl
  have hf16 : ((128 : Nat) &&& 16 = 16) = False := eq_false (by decide)
  have hf64 : ((128 : Nat) &&& 64 = 64) = False := eq_false (by decide)
  unfold processBlock
  rw [htake, hdrop]
  simp only [List.length_append, List.length_cons, List.length_replicate,
    List.length_nil, List.getD_cons_zero, List.getD_cons_succ,
    List.take_succ_cons, List.take_zero, hf16, hf64, if_true, if_false,
    decide_False, ne_eq, eq_self_iff_true, not_true, or_true, true_or]
  rw [if_neg (by omega)]
  simp only [hdec, checkPadding]
  rw [if_neg (by simp), if_pos (by simp)]

/-- C2 counterexample: a v2.4 tag block with the tag-level
Unsynchronisation flag set (header flags byte 0x80) and a frame payload
`FF 00 01` stores the payload verbatim — the `00` after `FF` is *not*
removed, although the claim requires the stored `Data` to be the destuffed
`FF 01`. -/
theorem processBlock_c2_counterexample :
    processBlock [73, 68, 51, 4, 0, 128, 0, 0, 0, 13,
        84, 73, 84, 50, 0, 0, 0, 3, 0, 0, 255, 0, 1] =
      .ok [⟨1414091826, 0, [255, 0, 1]⟩] ∧
    destuffSpec [255, 0, 1] = [255, 1] ∧
    ([255, 0, 1] : List Nat) ≠ destuffSpec [255, 0, 1] := by
  refine ⟨?_, by decide, by decide⟩
  have hdec : decodeFrames 4 [84, 73, 84, 50, 0, 0, 0, 3, 0, 0, 255, 0, 1] =
      .ok ([⟨1414091826, 0, [255, 0, 1]⟩], []) := by
    unfold decodeFrames
    rw [dif_neg (by norm_num)]
    rw [show frameID [84, 73, 84, 50, 0, 0, 0, 3, 0, 0, 255, 0, 1] = 1414091826 from
      by decide]
    rw [if_neg (by norm_num), if_neg (by norm_num [invalidFrameID]), if_pos rfl]
    simp only [List.getD_cons_zero, List.getD_cons_succ]
    rw [show syncsafe 0 0 0 3 = 3 from by decide]
    rw [if_neg (by norm_num [syncsafeInvalid])]
    simp only []
    rw [if_neg (by norm_num)]
    rw [show List.drop (10 + 3) [84, 73, 84, 50, 0, 0, 0, 3, 0, 0, 255, 0, 1] =
      ([] : List Nat) from rfl]
    rw [decodeFrames_of_le 4 [] (by simp)]
    rfl
  simp +decide [processBlock, hdec, checkPadding]

theorem processBlock_c2_witness :
    processBlock ([73, 68, 51, 4, 0, 128, 0, 0, 0, 0] ++
        84 :: 73 :: 84 :: 50 :: 0 :: 0 :: 0 :: 3 :: 0 :: 0 :: [255, 0, 1]) =
      .ok [⟨84 <<< 24 ||| 73 <<< 16 ||| 84 <<< 8 ||| 50,
            0 <<< 8 ||| 0, [255, 0, 1]⟩] :=
  processBlock_c2_amended 84 73 84 50 0 0 3 [255, 0, 1]
    (by decide) (by decide) (by decide) (by decide)
    (by norm_num) (by norm_num) (by norm_num)

end Id3v2
